import Mathlib

/-!
Verification of the lodestone-recipe-db-scraper fetch-and-normalize pipeline.

This file is a shallow embedding of the Python code in `src/main.py` (and the
name-override merge repeated in `src/add_other_lang.py`).  Pure computations
(level adjustment, regex-style field extraction, cache-expiry arithmetic,
name-override merging) are translated into executable Lean functions; the
stateful retry loop of `fetch` and the pagination loop of
`fetch_recipe_links_range` are modelled as recursive functions over an
explicit trace of HTTP attempt results / parsed listing pages.
-/

/-- Embedding of the `LEVEL_DIFF` dict of `src/main.py` (lines 48-82):
maps a recipe base level to its list of star-indexed level adjustments.
A Python dict lookup `LEVEL_DIFF[b]` is embedded as a function to `Option`. -/
def LEVEL_DIFF (b : Nat) : Option (List Int) :=
  if b = 50 then some [0, 5, 20, 40, 60]
  else if b = 51 then some [69]
  else if b = 52 then some [73]
  else if b = 53 then some [77]
  else if b = 54 then some [79]
  else if b = 55 then some [81]
  else if b = 56 then some [83]
  else if b = 57 then some [85]
  else if b = 58 then some [87]
  else if b = 59 then some [89]
  else if b = 60 then some [90, 100, 120, 150, 190]
  else if b = 61 then some [199]
  else if b = 62 then some [203]
  else if b = 63 then some [207]
  else if b = 64 then some [209]
  else if b = 65 then some [211]
  else if b = 66 then some [213]
  else if b = 67 then some [215]
  else if b = 68 then some [217]
  else if b = 69 then some [219]
  else if b = 70 then some [220, 230, 250, 280, 310]
  else if b = 71 then some [319]
  else if b = 72 then some [323]
  else if b = 73 then some [327]
  else if b = 74 then some [329]
  else if b = 75 then some [331]
  else if b = 76 then some [333]
  else if b = 77 then some [335]
  else if b = 78 then some [337]
  else if b = 79 then some [339]
  else if b = 80 then some [350, 360, 370, 400, 430]
  else none

/-- Embedding of `src/main.py` lines 264-272: when `base_level` is a key of
`LEVEL_DIFF`, the star count is read from the page (`pageStars`) and the
adjustment is `LEVEL_DIFF[base_level][stars]`; an `IndexError` there is a
fatal `SystemExit` (modelled as `Except.error ()`).  When `base_level` is not
in the table, `stars` stays `None` and the adjustment stays `0`. -/
def starsAndAdjustment (base pageStars : Nat) : Except Unit (Option Nat × Int) :=
  match LEVEL_DIFF base with
  | none => .ok (none, 0)
  | some offs =>
    match offs[pageStars]? with
    | some a => .ok (some pageStars, a)
    | none => .error ()

/-- The level computed at `src/main.py` line 274 (`level = base_level +
level_adjustment`), before the exception overrides of lines 284-288. -/
def preLevel (base pageStars : Nat) : Except Unit Int :=
  match starsAndAdjustment base pageStars with
  | .ok (_, adj) => .ok ((base : Int) + adj)
  | .error e => .error e

/-- Embedding of the exception overrides of `src/main.py` lines 284-288:
a flat `-5` for base level 51 with difficulty 169/339 and base level 61 with
difficulty 1116/558, then a flat `+10` for base level 60, 3 stars,
difficulty 1764. -/
def exceptionAdjust (base : Nat) (stars : Option Nat) (difficulty lvl : Int) : Int :=
  let lvl := if (base = 51 ∧ (difficulty = 169 ∨ difficulty = 339)) ∨
                (base = 61 ∧ (difficulty = 1116 ∨ difficulty = 558))
             then lvl - 5 else lvl
  if base = 60 ∧ stars = some 3 ∧ difficulty = 1764 then lvl + 10 else lvl

/-- The full level computation of `fetch_recipe` (`src/main.py` lines
263-288): table lookup followed by the exception overrides. -/
def computeLevel (base pageStars : Nat) (difficulty : Int) : Except Unit Int :=
  match starsAndAdjustment base pageStars with
  | .ok (stars, adj) => .ok (exceptionAdjust base stars difficulty ((base : Int) + adj))
  | .error e => .error e

theorem LEVEL_DIFF_none_of_large (b : Nat) (hb : 81 ≤ b) : LEVEL_DIFF b = none := by
  unfold LEVEL_DIFF
  repeat rw [if_neg (by omega)]

theorem LEVEL_DIFF_all_nonneg_below_81 :
    ∀ b < 81, ((LEVEL_DIFF b).getD []).all (fun a => decide (0 ≤ a)) = true := by decide

theorem LEVEL_DIFF_nonneg (b : Nat) (offs : List Int) (h : LEVEL_DIFF b = some offs) :
    ∀ a ∈ offs, 0 ≤ a := by
  by_cases hb : b < 81
  · have hall := LEVEL_DIFF_all_nonneg_below_81 b hb
    rw [h] at hall
    simp only [Option.getD_some, List.all_eq_true, decide_eq_true_eq] at hall
    exact hall
  · rw [LEVEL_DIFF_none_of_large b (by omega)] at h
    exact Option.noConfusion h

theorem LEVEL_DIFF_51 : LEVEL_DIFF 51 = some [69] := by decide

theorem LEVEL_DIFF_61 : LEVEL_DIFF 61 = some [199] := by decide

/-- C1: when the base level is a key of the table and the star count indexes
an existing offset, the pre-exception level is `baseLevel +
LEVEL_DIFF[baseLevel][starCount]`; when the base level is not in the table,
the pre-exception level is `baseLevel` itself. -/
theorem preLevel_table_lookup_or_base (base s : Nat) :
    (∀ offs : List Int, LEVEL_DIFF base = some offs →
      ∀ a : Int, offs[s]? = some a → preLevel base s = .ok ((base : Int) + a))
    ∧ (LEVEL_DIFF base = none → preLevel base s = .ok (base : Int)) := by
  constructor
  · intro offs hoffs a ha
    simp [preLevel, starsAndAdjustment, hoffs, ha]
  · intro hnone
    simp [preLevel, starsAndAdjustment, hnone]

/-- Witness for C1: base level 50 with 2 stars gives pre-exception level 70,
base level 60 with 4 stars gives 250, and base level 49 (not in the table)
gives 49. -/
theorem preLevel_table_lookup_or_base_witness :
    preLevel 50 2 = .ok 70 ∧ preLevel 60 4 = .ok 250 ∧ preLevel 49 0 = .ok 49 := by
  refine ⟨?_, ?_, ?_⟩
  · have h := (preLevel_table_lookup_or_base 50 2).1 [0, 5, 20, 40, 60] (by decide) 20 (by decide)
    simpa using h
  · have h := (preLevel_table_lookup_or_base 60 4).1 [90, 100, 120, 150, 190] (by decide) 190 (by decide)
    simpa using h
  · exact (preLevel_table_lookup_or_base 49 0).2 (by decide)

theorem LEVEL_DIFF_60 : LEVEL_DIFF 60 = some [90, 100, 120, 150, 190] := by decide

theorem starsAndAdjustment_cases (base s : Nat) (stars : Option Nat) (adj : Int)
    (h : starsAndAdjustment base s = .ok (stars, adj)) :
    (LEVEL_DIFF base = none ∧ stars = none ∧ adj = 0) ∨
    (∃ offs, LEVEL_DIFF base = some offs ∧ offs[s]? = some adj ∧ stars = some s) := by
  rcases hLD : LEVEL_DIFF base with _ | offs
  · left
    simp only [starsAndAdjustment, hLD, Except.ok.injEq, Prod.mk.injEq] at h
    exact ⟨rfl, h.1.symm, h.2.symm⟩
  · right
    rcases hget : offs[s]? with _ | a
    · simp only [starsAndAdjustment, hLD, hget] at h
      exact Except.noConfusion h
    · simp only [starsAndAdjustment, hLD, hget, Except.ok.injEq, Prod.mk.injEq] at h
      exact ⟨offs, rfl, by rw [← h.2]; exact hget, h.1.symm⟩

theorem exceptionAdjust_eq (base : Nat) (stars : Option Nat) (d lvl : Int) :
    exceptionAdjust base stars d lvl = lvl
      + (if (base = 51 ∧ (d = 169 ∨ d = 339)) ∨ (base = 61 ∧ (d = 1116 ∨ d = 558))
         then -5 else 0)
      + (if base = 60 ∧ stars = some 3 ∧ d = 1764 then 10 else 0) := by
  simp only [exceptionAdjust]
  split_ifs <;> omega

/-- C2: after the table lookup, `fetch_recipe` applies exactly the documented
exception overrides: `-5` when base level 51 meets difficulty 169/339 or base
level 61 meets difficulty 1116/558, `+10` when base level 60 with 3 stars
meets difficulty 1764, and nothing else (the `else` branches add 0). -/
theorem computeLevel_exception_overrides (base s : Nat) (d lvl : Int)
    (h : preLevel base s = .ok lvl) :
    computeLevel base s d = .ok (lvl
      + (if (base = 51 ∧ (d = 169 ∨ d = 339)) ∨ (base = 61 ∧ (d = 1116 ∨ d = 558))
         then -5 else 0)
      + (if base = 60 ∧ s = 3 ∧ d = 1764 then 10 else 0)) := by
  rcases hsa : starsAndAdjustment base s with e | ⟨stars, adj⟩
  · simp only [preLevel, hsa] at h
    exact Except.noConfusion h
  · simp only [preLevel, hsa] at h
    injection h with h2
    simp only [computeLevel, hsa, exceptionAdjust_eq, h2, Except.ok.injEq]
    rcases starsAndAdjustment_cases base s stars adj hsa with ⟨hLD, hst, _⟩ | ⟨offs, hLD, _, hst⟩
    · have hb60 : base ≠ 60 := by
        intro hb
        rw [hb, LEVEL_DIFF_60] at hLD
        exact Option.noConfusion hLD
      subst hst
      simp [hb60]
    · subst hst
      simp

/-- Witness for C2: base level 51, 0 stars, difficulty 169 lands on level 115
(120 from the table, minus 5), and base level 60, 3 stars, difficulty 1764
lands on level 220 (210 from the table, plus 10). -/
theorem computeLevel_exception_overrides_witness :
    computeLevel 51 0 169 = .ok 115 ∧ computeLevel 60 3 1764 = .ok 220 := by
  constructor
  · have h := computeLevel_exception_overrides 51 0 169 120 rfl
    simpa using h
  · have h := computeLevel_exception_overrides 60 3 1764 210 rfl
    simpa using h

/-- C7: when the base level is a key of the adjustment table but the page's
star count is beyond the offsets available for that base level, the
`IndexError` branch of `fetch_recipe` raises the fatal `SystemExit`
(modelled as `Except.error ()`) and no recipe record is produced. -/
theorem computeLevel_star_overflow_fatal (base s : Nat) (offs : List Int) (d : Int)
    (h1 : LEVEL_DIFF base = some offs) (h2 : offs.length ≤ s) :
    computeLevel base s d = .error () := by
  have hget : offs[s]? = none := by
    rw [List.getElem?_eq_none_iff]
    exact h2
  simp only [computeLevel, starsAndAdjustment, h1, hget]

/-- Witness for C7: base level 50 with 5 stars (only offsets 0-4 exist)
aborts the run. -/
theorem computeLevel_star_overflow_fatal_witness :
    computeLevel 50 5 0 = .error () :=
  computeLevel_star_overflow_fatal 50 5 [0, 5, 20, 40, 60] 0 (by decide) (by decide)

/-- C8: every level that `fetch_recipe` computes without aborting satisfies
`level >= baseLevel`, the table offsets being non-negative and the two `-5`
exception rules applying only where the table offset is 69 or 199. -/
theorem computeLevel_ge_baseLevel (base s : Nat) (d lvl : Int)
    (h : computeLevel base s d = .ok lvl) : (base : Int) ≤ lvl := by
  rcases hsa : starsAndAdjustment base s with e | ⟨stars, adj⟩
  · simp only [computeLevel, hsa] at h
    exact Except.noConfusion h
  · simp only [computeLevel, hsa, Except.ok.injEq] at h
    have hcases := starsAndAdjustment_cases base s stars adj hsa
    have hadj : 0 ≤ adj := by
      rcases hcases with ⟨_, _, hadj0⟩ | ⟨offs, hLD, hget, _⟩
      · omega
      · exact LEVEL_DIFF_nonneg base offs hLD adj (List.getElem?_mem hget)
    have h51 : base = 51 → adj = 69 := by
      intro hb
      subst hb
      rcases hcases with ⟨hLD, _, _⟩ | ⟨offs, hLD, hget, _⟩
      · rw [LEVEL_DIFF_51] at hLD
        exact Option.noConfusion hLD
      · rw [LEVEL_DIFF_51] at hLD
        injection hLD with hLD2
        subst hLD2
        have := List.getElem?_mem hget
        simpa using this
    have h61 : base = 61 → adj = 199 := by
      intro hb
      subst hb
      rcases hcases with ⟨hLD, _, _⟩ | ⟨offs, hLD, hget, _⟩
      · rw [LEVEL_DIFF_61] at hLD
        exact Option.noConfusion hLD
      · rw [LEVEL_DIFF_61] at hLD
        injection hLD with hLD2
        subst hLD2
        have := List.getElem?_mem hget
        simpa using this
    rw [exceptionAdjust_eq] at h
    subst h
    split_ifs with hm5 hp10 hp10
    · rcases hm5 with ⟨hb, _⟩ | ⟨hb, _⟩
      · have := h51 hb
        omega
      · have := h61 hb
        omega
    · rcases hm5 with ⟨hb, _⟩ | ⟨hb, _⟩
      · have := h51 hb
        omega
      · have := h61 hb
        omega
    · omega
    · omega

/-- Witness for C8: the computed level 70 for base level 50 with 2 stars is
at least the base level 50. -/
theorem computeLevel_ge_baseLevel_witness :
    computeLevel 50 2 0 = .ok 70 ∧ (50 : Int) ≤ 70 :=
  ⟨rfl, computeLevel_ge_baseLevel 50 2 0 70 rfl⟩

/-- Model of the `retry-after` header of a 429 response, as read at
`src/main.py` line 171 by `int(res.headers["retry-after"] or '5')`:
the header can be missing (dict-style access raises `KeyError`), present but
empty (falsy, so `'5'` is used), present but not parseable as an integer
(`int` raises `ValueError`), or present with an integer value. -/
inductive RetryHdr where
  | absent
  | empty
  | malformed
  | value (n : Int)
deriving DecidableEq

/-- One HTTP response as observed by `fetch`: a status code, the
`retry-after` header (only consulted on a 429) and the body text (only
consulted on a 200). -/
structure HttpResponse where
  status : Nat
  retryAfter : RetryHdr
  text : String
deriving DecidableEq

/-- One attempt inside `fetch`'s retry loop either yields a response or a
transport-level error (any exception from `session.get`). -/
inductive AttemptResult where
  | response (r : HttpResponse)
  | transportError
deriving DecidableEq

/-- Observable outcome of `fetch` (`src/main.py` lines 158-186): the returned
text, the fatal `SystemExit` after the failure budget is spent, or the case
where the modelled attempt trace ran out while the loop would keep going. -/
inductive FetchOutcome where
  | returned (text : String)
  | fatal
  | exhaustedTrace
deriving DecidableEq

/-- Embedding of the `while err_count < 5` retry loop of `fetch`
(`src/main.py` lines 164-186) over an explicit trace of attempt results.
A 429 whose `retry-after` header is present (empty or an integer) loops
without touching `err_count`; a 429 with a missing or malformed header
raises `KeyError`/`ValueError` inside the `try`, which the bare `except`
counts as a failure; any other non-200 status and any transport error also
count as failures.  A 200 returns its text. -/
def fetchGo : Nat → List AttemptResult → FetchOutcome
  | errCount, [] => if 5 ≤ errCount then .fatal else .exhaustedTrace
  | errCount, a :: rest =>
    if 5 ≤ errCount then .fatal
    else
      match a with
      | .transportError => fetchGo (errCount + 1) rest
      | .response r =>
        if r.status = 429 then
          match r.retryAfter with
          | .empty => fetchGo errCount rest
          | .value _ => fetchGo errCount rest
          | .absent => fetchGo (errCount + 1) rest
          | .malformed => fetchGo (errCount + 1) rest
        else if r.status = 200 then .returned r.text
        else fetchGo (errCount + 1) rest

/-- Embedding of `fetch` (`src/main.py` lines 158-186): a usable cache entry
is returned immediately, otherwise the retry loop starts with
`err_count = 0`. -/
def fetch (cached : Option String) (trace : List AttemptResult) : FetchOutcome :=
  match cached with
  | some t => .returned t
  | none => fetchGo 0 trace

/-- An attempt that the retry loop counts against the failure budget:
a transport error or a response whose status is neither 200 nor 429. -/
def isTransient : AttemptResult → Bool
  | .transportError => true
  | .response r => r.status ≠ 429 && r.status ≠ 200

theorem fetchGo_fatal_of_budget (err : Nat) (trace : List AttemptResult)
    (h : 5 ≤ err) : fetchGo err trace = .fatal := by
  cases trace <;> simp [fetchGo, h]

theorem fetchGo_transient_run (failures rest : List AttemptResult) (err : Nat)
    (htr : ∀ a ∈ failures, isTransient a = true) :
    fetchGo err (failures ++ rest) =
      if 5 ≤ err + failures.length then .fatal
      else fetchGo (err + failures.length) rest := by
  induction failures generalizing err with
  | nil =>
    simp only [List.nil_append, List.length_nil, Nat.add_zero]
    by_cases h : 5 ≤ err
    · rw [if_pos h, fetchGo_fatal_of_budget err rest h]
    · rw [if_neg h]
  | cons a failures ih =>
    have hta : isTransient a = true := htr a (by simp)
    have htf : ∀ b ∈ failures, isTransient b = true := by
      intro b hb
      exact htr b (by simp [hb])
    by_cases h : 5 ≤ err
    · rw [fetchGo_fatal_of_budget err _ h, if_pos (by simp; omega)]
    · have hstep : fetchGo err ((a :: failures) ++ rest) =
          fetchGo (err + 1) (failures ++ rest) := by
        cases a with
        | transportError => simp [fetchGo, h]
        | response r =>
          simp only [isTransient, Bool.and_eq_true, bne_iff_ne, ne_eq,
            decide_eq_true_eq] at hta
          simp [fetchGo, h, hta.1, hta.2]
      rw [hstep, ih (err + 1) htf]
      have harith : err + 1 + failures.length = err + (a :: failures).length := by
        simp
        omega
      rw [harith]

/-- C3: with no usable cache entry, `fetch` returns the success text when a
200 arrives after at most 4 accumulated transient failures (non-200 non-429
status or transport error), and raises the fatal `SystemExit` once 5
transient failures have accumulated, never reaching a later success. -/
theorem fetch_retry_budget (failures rest : List AttemptResult)
    (hdr : RetryHdr) (t : String)
    (htr : ∀ a ∈ failures, isTransient a = true) :
    (failures.length ≤ 4 →
      fetch none (failures ++ .response ⟨200, hdr, t⟩ :: rest) = .returned t)
    ∧ (5 ≤ failures.length →
      fetch none (failures ++ .response ⟨200, hdr, t⟩ :: rest) = .fatal) := by
  constructor
  · intro hlen
    show fetchGo 0 _ = _
    rw [fetchGo_transient_run failures _ 0 htr, if_neg (by omega)]
    have h5 : ¬ 5 ≤ 0 + failures.length := by omega
    simp only [fetchGo]
    rw [if_neg h5]
    simp
  · intro hlen
    show fetchGo 0 _ = _
    rw [fetchGo_transient_run failures _ 0 htr, if_pos (by omega)]

/-- Witness for C3: four transport errors then a 200 yield the text, while
five transport errors followed by the same 200 abort the run. -/
theorem fetch_retry_budget_witness :
    fetch none (List.replicate 4 .transportError ++
      .response ⟨200, .absent, "body"⟩ :: []) = .returned "body"
    ∧ fetch none (List.replicate 5 .transportError ++
      .response ⟨200, .absent, "body"⟩ :: []) = .fatal := by
  constructor
  · exact (fetch_retry_budget (List.replicate 4 .transportError) []
      .absent "body" (by decide)).1 (by decide)
  · exact (fetch_retry_budget (List.replicate 5 .transportError) []
      .absent "body" (by decide)).2 (by decide)

/-- C4 (evidence of the code bug): `int(res.headers["retry-after"] or '5')`
raises `KeyError` when the header is absent, so a 429 without a
`retry-after` header counts against the 5-failure budget: five of them
abort the run even though a success follows, while five 429s whose header
is present (here, empty, so the `'5'` default applies) do not consume the
budget and the subsequent success is returned. -/
theorem fetch_429_missing_header_counts_toward_budget :
    fetch none (List.replicate 5 (.response ⟨429, .absent, ""⟩) ++
      [.response ⟨200, .absent, "ok"⟩]) = .fatal
    ∧ fetch none (List.replicate 5 (.response ⟨429, .empty, ""⟩) ++
      [.response ⟨200, .absent, "ok"⟩]) = .returned "ok" := by
  constructor <;> rfl

/-- Embedding of `CACHE_EXPIRY` (`src/main.py` line 27): 12 hours in
seconds. -/
def CACHE_EXPIRY : Int := 60 * 60 * 12

/-- A cache entry on disk: its modification time (set when the entry was
stored) and its stored text. -/
structure CacheEntry where
  mtime : Int
  text : String
deriving DecidableEq

/-- Embedding of `get_cached_text` (`src/main.py` lines 136-148) for one
cache slot: a missing entry reads as absent; an entry with
`mtime < now - CACHE_EXPIRY` is removed and reads as absent; any other entry
is returned and kept.  The returned pair is (lookup result, cache slot after
the lookup's side effect). -/
def get_cached_text (entry : Option CacheEntry) (now : Int) :
    Option String × Option CacheEntry :=
  match entry with
  | none => (none, none)
  | some e => if e.mtime < now - CACHE_EXPIRY then (none, none) else (some e.text, some e)

/-- C5 counterexample: at exactly T + 12h the code still returns the stored
text (`st_mtime < time.time() - CACHE_EXPIRY` is false when the two sides are
equal), while the claim says the boundary instant behaves as absent. -/
theorem get_cached_text_boundary_not_absent :
    (get_cached_text (some ⟨0, "body"⟩) 43200).1 ≠ none := by decide

/-- C5 as amended: an entry stored at time T is returned (and kept) by every
lookup at or before T + 12h, and from strictly after T + 12h onward the
lookup returns absent and deletes the entry. -/
theorem get_cached_text_expiry_window (e : CacheEntry) (now : Int) :
    (now ≤ e.mtime + CACHE_EXPIRY → get_cached_text (some e) now = (some e.text, some e))
    ∧ (e.mtime + CACHE_EXPIRY < now → get_cached_text (some e) now = (none, none)) := by
  constructor
  · intro h
    show (if e.mtime < now - CACHE_EXPIRY then _ else _) = _
    rw [if_neg (by simp only [CACHE_EXPIRY] at h ⊢; omega)]
  · intro h
    show (if e.mtime < now - CACHE_EXPIRY then _ else _) = _
    rw [if_pos (by simp only [CACHE_EXPIRY] at h ⊢; omega)]

/-- Witness for C5 (amended): an entry stored at time 0 is still returned at
time 43200 (= 12h) and is gone, with deletion, at time 43201. -/
theorem get_cached_text_expiry_window_witness :
    get_cached_text (some ⟨0, "body"⟩) 43200 = (some "body", some ⟨0, "body"⟩)
    ∧ get_cached_text (some ⟨0, "body"⟩) 43201 = (none, none) :=
  ⟨(get_cached_text_expiry_window ⟨0, "body"⟩ 43200).1 (by decide),
   (get_cached_text_expiry_window ⟨0, "body"⟩ 43201).2 (by decide)⟩

/-- The parse of one listing page (`parse_links_page`, `src/main.py` lines
189-195): the relative links plus the `show_end` and `total` counters. -/
structure LinkPage where
  links : List String
  show_end : Nat
  total : Nat

/-- Embedding of the pagination loop of `fetch_recipe_links_range`
(`src/main.py` lines 207-217) over the sequence of pages the listing
endpoint would return for pages 1, 2, 3, ...: each iteration fetches one
page, appends its links, and continues with the next page exactly while
`show_end < total` on the page just fetched.  The result also carries the
number of page fetches issued; `none` models a server that never satisfies
the stop condition within the supplied sequence. -/
def fetch_recipe_links_range : List LinkPage → Option (List String × Nat)
  | [] => none
  | p :: rest =>
    if p.show_end < p.total then
      match fetch_recipe_links_range rest with
      | none => none
      | some (ls, n) => some (p.links ++ ls, n + 1)
    else some (p.links, 1)

/-- C6: if `show_end` first reaches `total` on page K (strictly smaller on
every earlier page), the walker fetches exactly K pages — never touching any
later page — and returns the links of those K pages concatenated in page
order. -/
theorem fetch_recipe_links_range_pagination (front : List LinkPage)
    (lastPage : LinkPage) (rest : List LinkPage)
    (hfront : ∀ p ∈ front, p.show_end < p.total)
    (hstop : lastPage.total ≤ lastPage.show_end) :
    fetch_recipe_links_range (front ++ lastPage :: rest) =
      some ((front.map (fun p => p.links)).flatten ++ lastPage.links,
        front.length + 1) := by
  induction front with
  | nil =>
    simp only [List.nil_append, List.map_nil, List.flatten_nil, List.length_nil]
    unfold fetch_recipe_links_range
    rw [if_neg (by omega)]
  | cons p front ih =>
    have hp : p.show_end < p.total := hfront p (by simp)
    have hf : ∀ q ∈ front, q.show_end < q.total := by
      intro q hq
      exact hfront q (by simp [hq])
    show fetch_recipe_links_range (p :: (front ++ lastPage :: rest)) = _
    unfold fetch_recipe_links_range
    rw [if_pos hp, ih hf]
    simp

/-- Witness for C6: with page 1 showing 50 of 120 links, page 2 showing 100
of 120 and page 3 showing 120 of 120, the walker issues exactly 3 fetches
and concatenates the three pages' links in order; a hypothetical page 4 is
never fetched. -/
theorem fetch_recipe_links_range_pagination_witness :
    fetch_recipe_links_range
      [⟨["a", "b"], 50, 120⟩, ⟨["c"], 100, 120⟩, ⟨["d"], 120, 120⟩,
        ⟨["never"], 120, 120⟩] = some (["a", "b", "c", "d"], 3) := by
  have h := fetch_recipe_links_range_pagination
    [⟨["a", "b"], 50, 120⟩, ⟨["c"], 100, 120⟩] ⟨["d"], 120, 120⟩
    [⟨["never"], 120, 120⟩] (by decide) (by decide)
  simpa using h

/-- Python dict assignment `d[k] = v` on an insertion-ordered association
list: an existing key keeps its position and gets the new value, a new key
is appended at the end. -/
def setName (nm : List (String × String)) (k v : String) : List (String × String) :=
  if (nm.lookup k).isSome then nm.map (fun p => if p.1 = k then (k, v) else p)
  else nm ++ [(k, v)]

/-- Embedding of `names.get(english_name) or english_name`
(`src/main.py` line 354): a missing mapping or a falsy (empty) mapped value
falls back to the English name. -/
def pyGetOr (names : List (String × String)) (k fallback : String) : String :=
  match names.lookup k with
  | some s => if s = "" then fallback else s
  | none => fallback

/-- Embedding of the name-override loop of `fetch_class` (`src/main.py`
lines 350-354, identical in `src/add_other_lang.py` lines 27-31) on one
recipe's name map: for each configured override locale, the locale's name is
assigned `names.get(english_name) or english_name`.  The `recipe['name']['en']`
read raises `KeyError` when no English name exists (modelled as
`Except.error ()`). -/
def applyNameOverrides :
    List (String × List (String × String)) → List (String × String) →
    Except Unit (List (String × String))
  | [], nm => .ok nm
  | (lang, names) :: rest, nm =>
    match nm.lookup "en" with
    | none => .error ()
    | some en => applyNameOverrides rest (setName nm lang (pyGetOr names en en))

/-- The normalized recipe record built by `fetch_recipe` (`src/main.py`
lines 307-315); only the fields relevant to the override merge are spelled
out, the rest witness that the merge leaves them alone. -/
structure Recipe where
  id : String
  name : List (String × String)
  baseLevel : Nat
  level : Int
  difficulty : Int
  durability : Int
  maxQuality : Int
deriving DecidableEq

/-- The override loop of `fetch_class` only ever assigns into
`recipe['name']`; every other field of the record is untouched. -/
def applyOverridesToRecipe (langs : List (String × List (String × String)))
    (r : Recipe) : Except Unit Recipe :=
  match applyNameOverrides langs r.name with
  | .ok nm => .ok { r with name := nm }
  | .error e => .error e

theorem lookup_mapReplace_self (nm : List (String × String)) (k v : String)
    (h : (nm.lookup k).isSome) :
    (nm.map (fun p => if p.1 = k then (k, v) else p)).lookup k = some v := by
  induction nm with
  | nil => simp [List.lookup] at h
  | cons p t ih =>
    rw [List.map_cons]
    by_cases hk : p.1 = k
    · rw [if_pos hk]
      simp [List.lookup]
    · rw [if_neg hk]
      have hbeq : (k == p.1) = false := by
        simp only [beq_eq_false_iff_ne, ne_eq]
        exact fun e => hk e.symm
      simp only [List.lookup, hbeq] at h ⊢
      exact ih h

theorem lookup_mapReplace_other (nm : List (String × String)) (k v key : String)
    (hne : key ≠ k) :
    (nm.map (fun p => if p.1 = k then (k, v) else p)).lookup key = nm.lookup key := by
  induction nm with
  | nil => simp
  | cons p t ih =>
    rw [List.map_cons]
    by_cases hk : p.1 = k
    · have hbeq : (key == p.1) = false := by
        simp only [beq_eq_false_iff_ne, ne_eq]
        rw [hk]
        exact hne
      have hbeq2 : (key == k) = false := by
        simp only [beq_eq_false_iff_ne, ne_eq]
        exact hne
      rw [if_pos hk]
      simp only [List.lookup, hbeq, hbeq2]
      exact ih
    · rw [if_neg hk]
      cases hb : key == p.1
      · simp only [List.lookup, hb]
        exact ih
      · simp only [List.lookup, hb]

theorem lookup_append_single_self (nm : List (String × String)) (k v : String)
    (h : nm.lookup k = none) :
    (nm ++ [(k, v)]).lookup k = some v := by
  induction nm with
  | nil => simp [List.lookup]
  | cons p t ih =>
    rw [List.cons_append]
    cases hb : k == p.1
    · simp only [List.lookup, hb] at h ⊢
      exact ih h
    · simp only [List.lookup, hb] at h
      exact Option.noConfusion h

theorem lookup_append_single_other (nm : List (String × String)) (k v key : String)
    (hne : key ≠ k) :
    (nm ++ [(k, v)]).lookup key = nm.lookup key := by
  have hbeq : (key == k) = false := by
    simp only [beq_eq_false_iff_ne, ne_eq]
    exact hne
  induction nm with
  | nil => simp [List.lookup, hbeq]
  | cons p t ih =>
    rw [List.cons_append]
    cases hb : key == p.1
    · simp only [List.lookup, hb]
      exact ih
    · simp only [List.lookup, hb]

theorem setName_lookup_self (nm : List (String × String)) (k v : String) :
    (setName nm k v).lookup k = some v := by
  unfold setName
  split_ifs with hmem
  · exact lookup_mapReplace_self nm k v hmem
  · exact lookup_append_single_self nm k v (by
      rcases h : nm.lookup k with _ | s
      · rfl
      · rw [h] at hmem
        simp at hmem)

theorem setName_lookup_other (nm : List (String × String)) (k v key : String)
    (hne : key ≠ k) :
    (setName nm k v).lookup key = nm.lookup key := by
  unfold setName
  split_ifs with hmem
  · exact lookup_mapReplace_other nm k v key hne
  · exact lookup_append_single_other nm k v key hne

theorem applyNameOverrides_spec (langs : List (String × List (String × String)))
    (nm : List (String × String)) (en : String)
    (hen : nm.lookup "en" = some en)
    (hen2 : "en" ∉ langs.map Prod.fst)
    (hnd : (langs.map Prod.fst).Nodup) :
    ∃ nm2, applyNameOverrides langs nm = .ok nm2 ∧
      (∀ lang names, (lang, names) ∈ langs →
        nm2.lookup lang = some (pyGetOr names en en)) ∧
      (∀ key, key ∉ langs.map Prod.fst → nm2.lookup key = nm.lookup key) := by
  induction langs generalizing nm with
  | nil => exact ⟨nm, rfl, by simp, fun key _ => rfl⟩
  | cons p rest ih =>
    obtain ⟨lang, names⟩ := p
    simp only [List.map_cons, List.mem_cons, not_or] at hen2
    obtain ⟨hen_ne, hen_rest⟩ := hen2
    simp only [List.map_cons, List.nodup_cons] at hnd
    obtain ⟨hlang_rest, hnd_rest⟩ := hnd
    have hen1 : (setName nm lang (pyGetOr names en en)).lookup "en" = some en := by
      rw [setName_lookup_other nm lang (pyGetOr names en en) "en" hen_ne, hen]
    obtain ⟨nm2, happ, hover, hframe⟩ :=
      ih (setName nm lang (pyGetOr names en en)) hen1 hen_rest hnd_rest
    refine ⟨nm2, ?_, ?_, ?_⟩
    · simp only [applyNameOverrides, hen]
      exact happ
    · intro l ns hmem
      rcases List.mem_cons.mp hmem with heq | hmem2
      · injection heq with h1 h2
        subst h1
        subst h2
        rw [hframe l hlang_rest, setName_lookup_self]
      · exact hover l ns hmem2
    · intro key hkey
      simp only [List.map_cons, List.mem_cons, not_or] at hkey
      rw [hframe key hkey.2,
        setName_lookup_other nm lang (pyGetOr names en en) key hkey.1]

/-- C9 counterexample: with override locale `fr` and an empty mapping, a
recipe whose scraped names are en=Sword, fr=Epee comes out with fr=Sword —
the scraped French name is NOT left unchanged, contradicting the claim. -/
theorem applyNameOverrides_no_mapping_replaces_scraped :
    applyNameOverrides [("fr", [])] [("en", "Sword"), ("fr", "Epee")] =
      .ok [("en", "Sword"), ("fr", "Sword")]
    ∧ (applyNameOverrides [("fr", [])] [("en", "Sword"), ("fr", "Epee")] ≠
      .ok [("en", "Sword"), ("fr", "Epee")]) := by
  constructor
  · rfl
  · intro h
    rw [show applyNameOverrides [("fr", [])] [("en", "Sword"), ("fr", "Epee")] =
      .ok [("en", "Sword"), ("fr", "Sword")] from rfl] at h
    simp at h

/-- C9 as amended: for every recipe with an English name and every list of
configured override locales (distinct, and not overriding `en` itself), the
merge sets each override locale's name to the mapped override of the English
name when that mapping exists and is non-empty, and otherwise to the English
name itself (not the previously scraped name); names of locales outside the
override list, and every non-name field of the recipe, are unchanged. -/
theorem applyOverridesToRecipe_override_or_english
    (langs : List (String × List (String × String))) (r : Recipe) (en : String)
    (hen : r.name.lookup "en" = some en)
    (hen2 : "en" ∉ langs.map Prod.fst)
    (hnd : (langs.map Prod.fst).Nodup) :
    ∃ r2, applyOverridesToRecipe langs r = .ok r2 ∧
      (∀ lang names, (lang, names) ∈ langs →
        r2.name.lookup lang = some (match names.lookup en with
          | some s => if s = "" then en else s
          | none => en)) ∧
      (∀ key, key ∉ langs.map Prod.fst → r2.name.lookup key = r.name.lookup key) ∧
      r2.id = r.id ∧ r2.baseLevel = r.baseLevel ∧ r2.level = r.level ∧
      r2.difficulty = r.difficulty ∧ r2.durability = r.durability ∧
      r2.maxQuality = r.maxQuality := by
  obtain ⟨nm2, happ, hover, hframe⟩ :=
    applyNameOverrides_spec langs r.name en hen hen2 hnd
  refine ⟨{ r with name := nm2 }, ?_, ?_, ?_, rfl, rfl, rfl, rfl, rfl, rfl⟩
  · simp only [applyOverridesToRecipe, happ]
  · intro lang names hmem
    exact hover lang names hmem
  · intro key hkey
    exact hframe key hkey

/-- Witness for C9 (amended): overriding locale `fr` with mapping
Sword→Lame on a recipe named en=Sword, fr=Epee. -/
theorem applyOverridesToRecipe_override_or_english_witness :
    ∃ r2, applyOverridesToRecipe [("fr", [("Sword", "Lame")])]
        ⟨"a1", [("en", "Sword"), ("fr", "Epee")], 50, 70, 100, 40, 1000⟩ = .ok r2 ∧
      (∀ lang names, (lang, names) ∈ [("fr", [("Sword", "Lame")])] →
        r2.name.lookup lang = some (match names.lookup "Sword" with
          | some s => if s = "" then "Sword" else s
          | none => "Sword")) ∧
      (∀ key, key ∉ ["fr"] →
        r2.name.lookup key =
          List.lookup key [("en", "Sword"), ("fr", "Epee")]) ∧
      r2.id = "a1" ∧ r2.baseLevel = 50 ∧ r2.level = 70 ∧
      r2.difficulty = 100 ∧ r2.durability = 40 ∧ r2.maxQuality = 1000 :=
  applyOverridesToRecipe_override_or_english [("fr", [("Sword", "Lame")])]
    ⟨"a1", [("en", "Sword"), ("fr", "Epee")], 50, 70, 100, 40, 1000⟩ "Sword"
    (by decide) (by decide) (by decide)

/-- Python `str.strip()` as used on each characteristics line
(`src/main.py` line 296). -/
def pyStrip (s : String) : String :=
  ⟨((s.data.dropWhile Char.isWhitespace).reverse.dropWhile Char.isWhitespace).reverse⟩

/-- Value of a digit string, as Python `int` computes it on the group
matched by `[0-9]+`. -/
def digitsToNat (ds : List Char) : Nat :=
  ds.foldl (fun a c => a * 10 + (c.toNat - 48)) 0

/-- Prefix-anchored match of `LITERAL([0-9]+)` against a line, as
`re.compile(...).match` does: the line must start with the literal and be
followed by at least one digit; the group is the maximal digit run. -/
def matchIntAfter (lit : List Char) (cs : List Char) : Option Nat :=
  if lit.isPrefixOf cs then
    let ds := (cs.drop lit.length).takeWhile Char.isDigit
    if ds.isEmpty then none else some (digitsToNat ds)
  else none

/-- Embedding of `ASPECT_RE` = `Aspect: (.+)` (`src/main.py` line 92)
applied with `.match`: the line must start with `Aspect: ` followed by at
least one character other than a newline; the group is the maximal run of
non-newline characters. -/
def ASPECT_RE_match (line : String) : Option String :=
  let pat := "Aspect: ".data
  let cs := line.data
  if pat.isPrefixOf cs then
    let g := (cs.drop pat.length).takeWhile (fun c => c ≠ '\n')
    if g.isEmpty then none else some ⟨g⟩
  else none

/-- Embedding of `RECIPE_CRAFTSMANSHIP_RE` =
`Craftsmanship (?:Required|Recommended): ([0-9]+)` (`src/main.py` line 93)
applied with `.match`; the two alternatives have mutually exclusive literal
prefixes. -/
def RECIPE_CRAFTSMANSHIP_RE_match (line : String) : Option Nat :=
  matchIntAfter "Craftsmanship Required: ".data line.data <|>
    matchIntAfter "Craftsmanship Recommended: ".data line.data

/-- Embedding of `RECIPE_CONTROL_RE` =
`Control (?:Required|Recommended): ([0-9]+)` (`src/main.py` line 94)
applied with `.match`. -/
def RECIPE_CONTROL_RE_match (line : String) : Option Nat :=
  matchIntAfter "Control Required: ".data line.data <|>
    matchIntAfter "Control Recommended: ".data line.data

/-- The three optional characteristics variables of `fetch_recipe`
(`src/main.py` lines 290-292), all starting as `None`. -/
structure CharScan where
  aspect : Option String
  suggested_craftsmanship : Option Nat
  suggested_control : Option Nat
deriving DecidableEq

/-- One iteration of the characteristics loop (`src/main.py` lines
295-305): the line is stripped, each of the three patterns is tried, and
each match overwrites its variable. -/
def scanStep (st : CharScan) (raw : String) : CharScan :=
  let line := pyStrip raw
  let st1 := match ASPECT_RE_match line with
    | some a => { st with aspect := some a }
    | none => st
  let st2 := match RECIPE_CRAFTSMANSHIP_RE_match line with
    | some n => { st1 with suggested_craftsmanship := some n }
    | none => st1
  match RECIPE_CONTROL_RE_match line with
  | some n => { st2 with suggested_control := some n }
  | none => st2

/-- The whole characteristics loop over the text lines of the
characteristics block. -/
def scanCharacteristics (lines : List String) : CharScan :=
  lines.foldl scanStep ⟨none, none, none⟩

/-- Presence of the `aspect` key in the output record (`src/main.py` lines
320-321): `if aspect:` keeps the key only for a truthy (non-empty) value. -/
def recipeAspect (lines : List String) : Option String :=
  match (scanCharacteristics lines).aspect with
  | some a => if a = "" then none else some a
  | none => none

/-- Presence of the `suggestedCraftsmanship` key (`src/main.py` lines
323-324): `if suggested_craftsmanship:` keeps the key only for a truthy
(non-zero) value. -/
def recipeSuggestedCraftsmanship (lines : List String) : Option Nat :=
  match (scanCharacteristics lines).suggested_craftsmanship with
  | some n => if n = 0 then none else some n
  | none => none

/-- Presence of the `suggestedControl` key (`src/main.py` lines 326-327). -/
def recipeSuggestedControl (lines : List String) : Option Nat :=
  match (scanCharacteristics lines).suggested_control with
  | some n => if n = 0 then none else some n
  | none => none

/-- The last value a line-matcher produces over a list of lines (later lines
overwrite earlier matches in the loop). -/
def lastMatch {α : Type} (f : String → Option α) (lines : List String) : Option α :=
  lines.reverse.findSome? f

/-- Keep the first option when it is present, the second otherwise (the
shape of "a later regex match overwrites the earlier value"). -/
def firstSome {α : Type} (a b : Option α) : Option α :=
  match a with
  | some x => some x
  | none => b

theorem findSome?_append {α β : Type} (l1 l2 : List α) (f : α → Option β) :
    (l1 ++ l2).findSome? f = firstSome (l1.findSome? f) (l2.findSome? f) := by
  induction l1 with
  | nil => simp [List.findSome?, firstSome]
  | cons a l1 ih =>
    rw [List.cons_append]
    simp only [List.findSome?]
    cases f a
    · exact ih
    · rfl

theorem lastMatch_cons {α : Type} (f : String → Option α) (l : String)
    (ls : List String) :
    lastMatch f (l :: ls) = firstSome (lastMatch f ls) (f l) := by
  unfold lastMatch
  rw [List.reverse_cons, findSome?_append]
  cases ls.reverse.findSome? f
  · simp only [firstSome, List.findSome?]
    cases f l <;> rfl
  · rfl

theorem scanStep_aspect (st : CharScan) (l : String) :
    (scanStep st l).aspect = firstSome (ASPECT_RE_match (pyStrip l)) st.aspect := by
  unfold scanStep
  cases hA : ASPECT_RE_match (pyStrip l) <;>
    cases hC : RECIPE_CRAFTSMANSHIP_RE_match (pyStrip l) <;>
      cases hK : RECIPE_CONTROL_RE_match (pyStrip l) <;>
        simp [hA, hC, hK, firstSome]

theorem scanStep_craftsmanship (st : CharScan) (l : String) :
    (scanStep st l).suggested_craftsmanship =
      firstSome (RECIPE_CRAFTSMANSHIP_RE_match (pyStrip l))
        st.suggested_craftsmanship := by
  unfold scanStep
  cases hA : ASPECT_RE_match (pyStrip l) <;>
    cases hC : RECIPE_CRAFTSMANSHIP_RE_match (pyStrip l) <;>
      cases hK : RECIPE_CONTROL_RE_match (pyStrip l) <;>
        simp [hA, hC, hK, firstSome]

theorem scanStep_control (st : CharScan) (l : String) :
    (scanStep st l).suggested_control =
      firstSome (RECIPE_CONTROL_RE_match (pyStrip l)) st.suggested_control := by
  unfold scanStep
  cases hA : ASPECT_RE_match (pyStrip l) <;>
    cases hC : RECIPE_CRAFTSMANSHIP_RE_match (pyStrip l) <;>
      cases hK : RECIPE_CONTROL_RE_match (pyStrip l) <;>
        simp [hA, hC, hK, firstSome]

theorem scan_foldl_proj {α : Type} (field : CharScan → Option α)
    (f : String → Option α)
    (hstep : ∀ st l, field (scanStep st l) = firstSome (f (pyStrip l)) (field st))
    (lines : List String) :
    ∀ st : CharScan, field (lines.foldl scanStep st) =
      firstSome (lastMatch (fun l => f (pyStrip l)) lines) (field st) := by
  induction lines with
  | nil =>
    intro st
    simp [lastMatch, List.findSome?, firstSome]
  | cons l ls ih =>
    intro st
    rw [List.foldl_cons, ih (scanStep st l), lastMatch_cons, hstep st l]
    cases lastMatch (fun l2 => f (pyStrip l2)) ls <;>
      cases f (pyStrip l) <;> rfl

/-- C10 counterexample: the line `Craftsmanship Required: 0` matches the
craftsmanship pattern with value 0, yet the `suggestedCraftsmanship` key is
omitted from the record (`if suggested_craftsmanship:` is false for 0), so a
matched zero is NOT kept as a present field. -/
theorem suggestedCraftsmanship_zero_omitted :
    RECIPE_CRAFTSMANSHIP_RE_match (pyStrip "Craftsmanship Required: 0") = some 0
    ∧ recipeSuggestedCraftsmanship ["Craftsmanship Required: 0"] = none := by
  constructor <;> rfl

/-- C10 as amended: each optional characteristics field is present in the
output record if and only if its pattern matched on some line AND the last
matched value is truthy (a non-empty aspect text, a non-zero suggested
stat); the present value is the last match.  A matched value of zero (or an
empty aspect) is omitted exactly like no match at all. -/
theorem characteristics_truthy_presence (lines : List String) :
    recipeAspect lines =
      (match lastMatch (fun l => ASPECT_RE_match (pyStrip l)) lines with
      | some a => if a = "" then none else some a
      | none => none)
    ∧ recipeSuggestedCraftsmanship lines =
      (match lastMatch (fun l => RECIPE_CRAFTSMANSHIP_RE_match (pyStrip l)) lines with
      | some n => if n = 0 then none else some n
      | none => none)
    ∧ recipeSuggestedControl lines =
      (match lastMatch (fun l => RECIPE_CONTROL_RE_match (pyStrip l)) lines with
      | some n => if n = 0 then none else some n
      | none => none) := by
  refine ⟨?_, ?_, ?_⟩
  · unfold recipeAspect scanCharacteristics
    rw [scan_foldl_proj (fun st => st.aspect) ASPECT_RE_match scanStep_aspect
      lines ⟨none, none, none⟩]
    cases lastMatch (fun l => ASPECT_RE_match (pyStrip l)) lines <;> rfl
  · unfold recipeSuggestedCraftsmanship scanCharacteristics
    rw [scan_foldl_proj (fun st => st.suggested_craftsmanship)
      RECIPE_CRAFTSMANSHIP_RE_match scanStep_craftsmanship lines ⟨none, none, none⟩]
    cases lastMatch (fun l => RECIPE_CRAFTSMANSHIP_RE_match (pyStrip l)) lines <;> rfl
  · unfold recipeSuggestedControl scanCharacteristics
    rw [scan_foldl_proj (fun st => st.suggested_control)
      RECIPE_CONTROL_RE_match scanStep_control lines ⟨none, none, none⟩]
    cases lastMatch (fun l => RECIPE_CONTROL_RE_match (pyStrip l)) lines <;> rfl
